import Mathlib

/-!
Verification development for the Kids-2D-Games repository.
Shallow embedding of the Math Master game (MathMasterGame.tsx) and the
Balloon Pop game (BalloonPopGame.tsx): session state machines, the math
problem generator with its distractor loop and shuffle, the weighted
balloon-type spawner, the per-frame update steps, and the best-scores
persistence. JS numbers are modelled as Int / Rat; the draws of
Math.random are modelled as explicit parameters and streams.
-/

/-- Session phase, shared by both games. The math game uses the values
waiting, playing and gameOver; the balloon game additionally uses paused. -/
inductive GState
  | waiting
  | playing
  | paused
  | gameOver
deriving DecidableEq, Repr

/-- State of a Math Master session: the gameState string, the score, the
remaining time in seconds, the difficulty level, the current correct streak
and the maximal streak. -/
structure MathState where
  phase : GState
  score : Nat
  timeLeft : ℚ
  difficulty : Nat
  streak : Nat
  maxStreak : Nat
deriving DecidableEq, Repr

/-- The per-frame update of MathMasterGame: returns unchanged unless playing,
subtracts the frame delta from the remaining time (the source uses the fixed
delta 1/60 per frame), moves to gameOver once the remaining time is
nonpositive, and otherwise raises the difficulty from the score thresholds
30 and 15. -/
def mathUpdate (dt : ℚ) (s : MathState) : MathState :=
  if s.phase ≠ .playing then s
  else
    let t := s.timeLeft - dt
    if t ≤ 0 then { s with timeLeft := t, phase := .gameOver }
    else if 30 ≤ s.score ∧ s.difficulty < 3 then { s with timeLeft := t, difficulty := 3 }
    else if 15 ≤ s.score ∧ s.difficulty < 2 then { s with timeLeft := t, difficulty := 2 }
    else { s with timeLeft := t }

/-- checkAnswer of MathMasterGame, restricted to its session-state effect:
a correct selection adds difficulty * 5 points, increments the streak and
raises maxStreak when the new streak exceeds it; a wrong selection resets
the streak to 0. -/
def checkAnswer (selected : Int) (s : MathState) (answer : Int) : MathState :=
  if selected = answer then
    { s with
        score := s.score + s.difficulty * 5,
        streak := s.streak + 1,
        maxStreak := if s.streak + 1 > s.maxStreak then s.streak + 1 else s.maxStreak }
  else
    { s with streak := 0 }

/-- The session state right after startGame: score 0, streaks 0,
difficulty 1, 60 seconds on the clock, phase playing. -/
def initialMathState : MathState :=
  { phase := .playing, score := 0, timeLeft := 60, difficulty := 1, streak := 0, maxStreak := 0 }

/-- Arithmetic operator of a generated problem. -/
inductive Op
  | add
  | sub
  | mul
  | div
deriving DecidableEq, Repr

/-- Operands, operator and correct answer produced by generateProblem
before the options list is built. -/
structure GenResult where
  num1 : Int
  num2 : Int
  op : Op
  answer : Int
deriving DecidableEq, Repr

/-- The operand-and-answer part of generateProblem. A draw
Math.floor(Math.random() * k) + 1 is modelled as r % k + 1, the coin
Math.random() > 0.5 as a Bool, and Math.floor(Math.random() * k) for the
operation choice as opType % k. Mirrors the difficulty 1 / 2 / else
branches of the source, including the operand swap that keeps easy
subtraction nonnegative and the construction num1 = num2 * answer for
division. -/
def generateNums (difficulty : Nat) (coin : Bool) (opType r1 r2 : Nat) : GenResult :=
  if difficulty = 1 then
    let num1 := r1 % 10 + 1
    let num2 := r2 % 10 + 1
    if coin then ⟨num1, num2, .add, (num1 : Int) + num2⟩
    else if num1 < num2 then ⟨num2, num1, .sub, (num2 : Int) - num1⟩
    else ⟨num1, num2, .sub, (num1 : Int) - num2⟩
  else if difficulty = 2 then
    match opType % 3 with
    | 0 =>
      let num1 := r1 % 20 + 1
      let num2 := r2 % 20 + 1
      ⟨num1, num2, .add, (num1 : Int) + num2⟩
    | 1 =>
      let num1 := r1 % 20 + 1
      let num2 := r2 % num1 + 1
      ⟨num1, num2, .sub, (num1 : Int) - num2⟩
    | _ =>
      let num1 := r1 % 5 + 1
      let num2 := r2 % 5 + 1
      ⟨num1, num2, .mul, (num1 : Int) * num2⟩
  else
    match opType % 4 with
    | 0 =>
      let num1 := r1 % 50 + 1
      let num2 := r2 % 50 + 1
      ⟨num1, num2, .add, (num1 : Int) + num2⟩
    | 1 =>
      let num1 := r1 % 50 + 1
      let num2 := r2 % num1 + 1
      ⟨num1, num2, .sub, (num1 : Int) - num2⟩
    | 2 =>
      let num1 := r1 % 10 + 1
      let num2 := r2 % 10 + 1
      ⟨num1, num2, .mul, (num1 : Int) * num2⟩
    | _ =>
      let num2 := r1 % 10 + 1
      let answer := r2 % 10 + 1
      ⟨(num2 : Int) * answer, num2, .div, answer⟩

/-- One distractor candidate: the correct answer perturbed by a bounded
random offset whose range depends on the difficulty, exactly as in the
source (ranges [-2,2], [-4,3] and [-5,4]). The raw draw r models
Math.floor(Math.random() * width). -/
def variantFor (difficulty : Nat) (answer : Int) (r : Nat) : Int :=
  if difficulty = 1 then answer + (r % 5 : Nat) - 2
  else if difficulty = 2 then answer + (r % 8 : Nat) - 4
  else answer + (r % 10 : Nat) - 5

/-- The while loop of generateProblem that fills the options list: as long
as fewer than 4 options exist, draw a variant and append it when it is
positive and not already present. The source loop is unbounded; here it is
given explicit fuel and returns none when the fuel runs out before 4
options exist. -/
def optionsLoop (difficulty : Nat) (answer : Int) (vs : Nat → Nat) :
    Nat → Nat → List Int → Option (List Int)
  | 0, _, acc => if 4 ≤ acc.length then some acc else none
  | fuel + 1, i, acc =>
    if 4 ≤ acc.length then some acc
    else if 0 < variantFor difficulty answer (vs i) ∧ variantFor difficulty answer (vs i) ∉ acc then
      optionsLoop difficulty answer vs fuel (i + 1) (acc ++ [variantFor difficulty answer (vs i)])
    else optionsLoop difficulty answer vs fuel (i + 1) acc

/-- Exchange the entries at positions i and j, as the destructuring swap
of the source shuffle does. -/
def swapAt (l : List Int) (i j : Nat) : List Int :=
  (l.set i (l.getD j 0)).set j (l.getD i 0)

/-- The Fisher-Yates loop of the source: for i from the last index down
to 1, swap position i with position js i, where js i models
Math.floor(Math.random() * (i + 1)). -/
def fyGo (js : Nat → Nat) : Nat → List Int → List Int
  | 0, l => l
  | n + 1, l => fyGo js n (swapAt l (n + 1) (js (n + 1)))

/-- The full shuffle of the options list. -/
def fisherYates (l : List Int) (js : Nat → Nat) : List Int :=
  fyGo js (l.length - 1) l

/-- The whole of generateProblem: build the operands and answer, run the
options loop seeded with the correct answer, then shuffle. Returns none
exactly when the (fuelled) options loop fails to finish. -/
def generateProblem (difficulty : Nat) (coin : Bool) (opType r1 r2 : Nat)
    (vs : Nat → Nat) (fuel : Nat) (js : Nat → Nat) : Option (GenResult × List Int) :=
  let g := generateNums difficulty coin opType r1 r2
  match optionsLoop difficulty g.answer vs fuel 0 [g.answer] with
  | none => none
  | some l => some (g, fisherYates l js)

/-- The best-scores persistence effect of the math game: when the final
score is positive, append it, sort descending and keep the top 5; the
source guards with score > 0, so a zero score is not recorded. The
descending sort models the source call sort with comparator b - a. -/
def recordHighScore (score : Nat) (hs : List Nat) : List Nat :=
  if 0 < score then (List.insertionSort (· ≥ ·) (hs ++ [score])).take 5 else hs

/-- Difficulty tier that the fixed spec thresholds assign to a score:
3 from 30 points, 2 from 15 points, else 1. Stated from the spec wording
to compare against the code in mathUpdate. -/
def specTier (score : Nat) : Nat :=
  if 30 ≤ score then 3 else if 15 ≤ score then 2 else 1

/-- The five balloon kinds of BalloonPopGame. -/
inductive BalloonType
  | NORMAL
  | BOMB
  | GOLDEN
  | SPEED
  | LIFE
deriving DecidableEq, Repr

/-- The fixed probability table of the source, in declaration order. -/
def BALLOON_TYPES : List (BalloonType × ℚ) :=
  [(.NORMAL, 55/100), (.BOMB, 20/100), (.GOLDEN, 10/100), (.SPEED, 10/100), (.LIFE, 5/100)]

/-- The for-of loop of getRandomBalloonType: walk the table accumulating
probabilities and return the first kind whose cumulative probability is
greater than or equal to the draw; past the end of the table the source
returns NORMAL as fallback. -/
def typeLoop (rand : ℚ) : List (BalloonType × ℚ) → ℚ → BalloonType
  | [], _ => .NORMAL
  | (t, p) :: rest, cum =>
    if rand ≤ cum + p then t else typeLoop rand rest (cum + p)

/-- getRandomBalloonType of the source, on a draw rand that models
Math.random(). -/
def getRandomBalloonType (rand : ℚ) : BalloonType :=
  typeLoop rand BALLOON_TYPES 0

/-- Weighted selection as the spec describes it: the first kind in
declaration order whose cumulative probability is at least the draw, the
cumulative bounds being 0.55, 0.75, 0.85, 0.95 and 1. Written from the
spec wording to compare against getRandomBalloonType. -/
def specBucketType (rand : ℚ) : BalloonType :=
  if rand ≤ 55/100 then .NORMAL
  else if rand ≤ 75/100 then .BOMB
  else if rand ≤ 85/100 then .GOLDEN
  else if rand ≤ 95/100 then .SPEED
  else .LIFE

/-- The balloon hit radius of the source. -/
def BALLOON_RADIUS : ℚ := 30

/-- A balloon: vertical position, per-frame speed, popped flag and kind.
The horizontal position, colour and label play no role in the verified
logic and are omitted. -/
structure Balloon where
  y : ℚ
  speed : ℚ
  popped : Bool
  btype : BalloonType
deriving DecidableEq, Repr

/-- State of a Balloon Pop session: phase, score, lives, the live balloon
list, the combo counter with its timer, and the speed power-up flag with
its timer. -/
structure BalloonState where
  phase : GState
  score : Int
  lives : Int
  balloons : List Balloon
  combo : Nat
  comboTimer : Int
  activePowerUp : Bool
  powerUpTimer : Int
deriving DecidableEq, Repr

/-- Combo-timer part of the balloon update: a running timer loses 16 ms,
and the combo resets when the timer reaches zero. -/
def comboAfter (s : BalloonState) : Int × Nat :=
  if 0 < s.comboTimer then
    let t := s.comboTimer - 16
    if t ≤ 0 then (t, 0) else (t, s.combo)
  else (s.comboTimer, s.combo)

/-- Power-up-timer part of the balloon update: a running timer loses 16 ms,
and the power-up clears when the timer reaches zero. -/
def powerAfter (s : BalloonState) : Int × Bool :=
  if 0 < s.powerUpTimer then
    let t := s.powerUpTimer - 16
    if t ≤ 0 then (t, false) else (t, s.activePowerUp)
  else (s.powerUpTimer, s.activePowerUp)

/-- Speed multiplier applied to every balloon this frame: one half while
the SPEED power-up is active, else one. -/
def speedMult (active : Bool) : ℚ :=
  if active then 1/2 else 1

/-- Move a balloon upward by its speed times the multiplier. -/
def moveY (mult : ℚ) (b : Balloon) : Balloon :=
  { b with y := b.y - b.speed * mult }

/-- The forEach over balloons in the balloon update: skip already popped
balloons; move the rest; a balloon whose top edge crossed above the canvas
is marked popped, and unless it is a BOMB one life is deducted, with the
phase forced to gameOver the moment lives reach zero or below. Returns the
processed list together with the final lives and phase. -/
def stepBalloons (mult : ℚ) : List Balloon → Int → GState → List Balloon × Int × GState
  | [], lives, ph => ([], lives, ph)
  | b :: rest, lives, ph =>
    if b.popped then
      let r := stepBalloons mult rest lives ph
      (b :: r.1, r.2)
    else
      let b1 := moveY mult b
      if b1.y + BALLOON_RADIUS < 0 then
        let b2 := { b1 with popped := true }
        if b.btype = .BOMB then
          let r := stepBalloons mult rest lives ph
          (b2 :: r.1, r.2)
        else
          let lives1 := lives - 1
          let ph1 := if lives1 ≤ 0 then GState.gameOver else ph
          let r := stepBalloons mult rest lives1 ph1
          (b2 :: r.1, r.2)
      else
        let r := stepBalloons mult rest lives ph
        (b1 :: r.1, r.2)

/-- The per-frame update of BalloonPopGame: nothing happens unless playing;
otherwise the two timers tick down, every balloon moves with the
post-decay speed multiplier, escapes are charged, and popped or off-screen
balloons are filtered out. -/
def balloonUpdate (s : BalloonState) : BalloonState :=
  if s.phase ≠ .playing then s
  else
    let ct := comboAfter s
    let pt := powerAfter s
    let mult := speedMult pt.2
    let r := stepBalloons mult s.balloons s.lives s.phase
    let kept := r.1.filter (fun b => decide (0 < b.y + BALLOON_RADIUS) && !b.popped)
    { phase := r.2.2, score := s.score, lives := r.2.1, balloons := kept,
      combo := ct.2, comboTimer := ct.1, activePowerUp := pt.2, powerUpTimer := pt.1 }

/-- A balloon escapes this frame when it is live and its moved position
puts its top edge above the canvas. -/
def escapes (mult : ℚ) (b : Balloon) : Bool :=
  !b.popped && decide ((moveY mult b).y + BALLOON_RADIUS < 0)

/-- An escape that costs a life: any escaping balloon except a BOMB. -/
def escapesLoss (mult : ℚ) (b : Balloon) : Bool :=
  escapes mult b && decide (b.btype ≠ BalloonType.BOMB)

/-- startGame of the balloon game: clear everything and enter playing. -/
def startGame (_s : BalloonState) : BalloonState :=
  { phase := .playing, score := 0, lives := 3, balloons := [],
    combo := 0, comboTimer := 0, activePowerUp := false, powerUpTimer := 0 }

/-- The start/restart part of handleCanvasClick: a click while waiting or
gameOver starts a fresh session; otherwise this part does nothing. -/
def handleClickStart (s : BalloonState) : BalloonState :=
  if s.phase = .waiting ∨ s.phase = .gameOver then startGame s else s

/-- togglePause of the source: playing and paused exchange, other phases
ignore the intent. -/
def togglePause (s : BalloonState) : BalloonState :=
  if s.phase = .playing then { s with phase := .paused }
  else if s.phase = .paused then { s with phase := .playing }
  else s

/-- resetGame of the source: return to the waiting phase and clear all
session fields. -/
def resetGame (_s : BalloonState) : BalloonState :=
  { phase := .waiting, score := 0, lives := 3, balloons := [],
    combo := 0, comboTimer := 0, activePowerUp := false, powerUpTimer := 0 }

/-- The special-balloon side effects of a pop in handleCanvasClick or
handleTouch: a BOMB costs a life and can force gameOver, a LIFE balloon
adds a life capped at 5, a SPEED balloon arms the slow-down power-up for
5 seconds. -/
def popSpecialEffects (t : BalloonType) (s : BalloonState) : BalloonState :=
  match t with
  | .BOMB =>
    let l := s.lives - 1
    { s with lives := l, phase := if l ≤ 0 then .gameOver else s.phase }
  | .LIFE => { s with lives := min (s.lives + 1) 5 }
  | .SPEED => { s with activePowerUp := true, powerUpTimer := 5000 }
  | _ => s

/-- Allowed forward phase transitions: stay in place, or move along
waiting to playing, playing to paused and back, playing to gameOver, and
the restart edge gameOver to playing. -/
def forwardOk (g g1 : GState) : Prop :=
  g1 = g ∨ (g = .waiting ∧ g1 = .playing) ∨ (g = .playing ∧ g1 = .paused) ∨
    (g = .paused ∧ g1 = .playing) ∨ (g = .playing ∧ g1 = .gameOver) ∨
    (g = .gameOver ∧ g1 = .playing)

/-! ### Permutation facts about the shuffle -/

lemma getD_cons_swap_perm :
    ∀ (xs : List Int) (x : Int) (j : Nat), j < xs.length →
      (xs.getD j 0 :: xs.set j x).Perm (x :: xs) := by
  intro xs
  induction xs with
  | nil =>
    intro x j h
    simp at h
  | cons y ys ih =>
    intro x j h
    cases j with
    | zero => simpa using List.Perm.swap x y ys
    | succ n =>
      have hn : n < ys.length := by simpa using h
      exact ((List.Perm.swap y (ys.getD n 0) (ys.set n x)).trans
        ((ih x n hn).cons y)).trans (List.Perm.swap x y ys)

lemma swapAt_perm :
    ∀ (l : List Int) (i j : Nat), i < l.length → j < l.length → (swapAt l i j).Perm l := by
  intro l
  induction l with
  | nil =>
    intro i j hi _
    simp at hi
  | cons x xs ih =>
    intro i j hi hj
    cases i with
    | zero =>
      cases j with
      | zero =>
        simp [swapAt]
      | succ n =>
        have hn : n < xs.length := by simpa using hj
        simp only [swapAt, List.getD_cons_succ, List.getD_cons_zero, List.set_cons_zero,
          List.set_cons_succ]
        exact getD_cons_swap_perm xs x n hn
    | succ m =>
      cases j with
      | zero =>
        have hm : m < xs.length := by simpa using hi
        simp only [swapAt, List.getD_cons_succ, List.getD_cons_zero, List.set_cons_zero,
          List.set_cons_succ]
        exact getD_cons_swap_perm xs x m hm
      | succ n =>
        have hm : m < xs.length := by simpa using hi
        have hn : n < xs.length := by simpa using hj
        simp only [swapAt, List.getD_cons_succ, List.set_cons_succ]
        exact (ih m n hm hn).cons x

lemma fyGo_perm (js : Nat → Nat) (hjs : ∀ k, js k ≤ k) :
    ∀ (n : Nat) (l : List Int), n < l.length → (fyGo js n l).Perm l := by
  intro n
  induction n with
  | zero =>
    intro l _
    simp [fyGo]
  | succ m ih =>
    intro l h
    have h2 : js (m + 1) < l.length := lt_of_le_of_lt (hjs (m + 1)) h
    have hp : (swapAt l (m + 1) (js (m + 1))).Perm l := swapAt_perm l (m + 1) (js (m + 1)) h h2
    have hm : m < (swapAt l (m + 1) (js (m + 1))).length := by
      rw [hp.length_eq]
      omega
    exact (ih (swapAt l (m + 1) (js (m + 1))) hm).trans hp

/-! ### The options loop -/

lemma optionsLoop_some_spec (d : Nat) (a : Int) (vs : Nat → Nat) :
    ∀ (fuel i : Nat) (acc l : List Int),
      acc.Nodup → acc.length ≤ 4 → (∀ x ∈ acc, x = a ∨ 0 < x) →
      optionsLoop d a vs fuel i acc = some l →
      l.Nodup ∧ l.length = 4 ∧ (∀ x ∈ acc, x ∈ l) ∧ (∀ x ∈ l, x = a ∨ 0 < x) := by
  intro fuel
  induction fuel with
  | zero =>
    intro i acc l hnd hlen hinv h
    by_cases h4 : 4 ≤ acc.length
    · rw [optionsLoop, if_pos h4] at h
      cases h
      exact ⟨hnd, by omega, fun x hx => hx, hinv⟩
    · rw [optionsLoop, if_neg h4] at h
      cases h
  | succ fuel ih =>
    intro i acc l hnd hlen hinv h
    by_cases h4 : 4 ≤ acc.length
    · rw [optionsLoop, if_pos h4] at h
      cases h
      exact ⟨hnd, by omega, fun x hx => hx, hinv⟩
    · rw [optionsLoop, if_neg h4] at h
      by_cases hv : 0 < variantFor d a (vs i) ∧ variantFor d a (vs i) ∉ acc
      · rw [if_pos hv] at h
        have hnd2 : (acc ++ [variantFor d a (vs i)]).Nodup :=
          List.Nodup.append hnd (List.nodup_singleton _) (by simpa using hv.2)
        have hlen2 : (acc ++ [variantFor d a (vs i)]).length ≤ 4 := by
          simp only [List.length_append, List.length_singleton]
          omega
        have hinv2 : ∀ x ∈ acc ++ [variantFor d a (vs i)], x = a ∨ 0 < x := by
          intro x hx
          rcases List.mem_append.mp hx with hx | hx
          · exact hinv x hx
          · right
            simp only [List.mem_singleton] at hx
            subst hx
            exact hv.1
        obtain ⟨hl1, hl2, hl3, hl4⟩ := ih (i + 1) (acc ++ [variantFor d a (vs i)]) l hnd2 hlen2 hinv2 h
        exact ⟨hl1, hl2, fun x hx => hl3 x (List.mem_append_left _ hx), hl4⟩
      · rw [if_neg hv] at h
        exact ih (i + 1) acc l hnd hlen hinv h

lemma generateNums_answer_nonneg (difficulty : Nat) (coin : Bool) (opType r1 r2 : Nat) :
    0 ≤ (generateNums difficulty coin opType r1 r2).answer := by
  have hm1 : r2 % (r1 % 20 + 1) < r1 % 20 + 1 := Nat.mod_lt _ (by omega)
  have hm2 : r2 % (r1 % 50 + 1) < r1 % 50 + 1 := Nat.mod_lt _ (by omega)
  unfold generateNums
  repeat' split
  all_goals dsimp only
  all_goals first
    | omega
    | positivity
    | (split <;> dsimp only <;> omega)

/-! ### Claim C1 -/

/-- C1 counterexample: at difficulty 2 the subtraction 5 - 5 yields the
correct answer 0, and the generator then completes with the choices
0, 1, 2, 3 — a generated Challenge containing a numeric choice that is not
strictly greater than 0. -/
theorem mathChoices_zero_cex :
    generateProblem 2 false 1 4 4 (fun i => i + 5) 8 (fun i => i) =
      some (⟨5, 5, Op.sub, 0⟩, [0, 1, 2, 3]) ∧
    (0 : Int) ∈ [(0 : Int), 1, 2, 3] ∧ ¬ (0 < (0 : Int)) := by
  refine ⟨by decide, by decide, by decide⟩

/-- C1 (amended): every Challenge that generateProblem returns satisfies
the invariant that the correct answer is among the choices, there are
exactly 4 pairwise distinct choices, and every choice other than the
correct answer is strictly positive; the correct answer itself is only
guaranteed nonnegative and can be 0. -/
theorem generateProblem_invariant
    (d : Nat) (coin : Bool) (opType r1 r2 : Nat) (vs : Nat → Nat) (fuel : Nat)
    (js : Nat → Nat) (g : GenResult) (l : List Int)
    (hjs : ∀ k, js k ≤ k)
    (h : generateProblem d coin opType r1 r2 vs fuel js = some (g, l)) :
    g.answer ∈ l ∧ l.length = 4 ∧ l.Nodup ∧ (∀ x ∈ l, x ≠ g.answer → 0 < x) ∧
      0 ≤ g.answer := by
  unfold generateProblem at h
  simp only [] at h
  cases hlo : optionsLoop d (generateNums d coin opType r1 r2).answer vs fuel 0
      [(generateNums d coin opType r1 r2).answer] with
  | none =>
    rw [hlo] at h
    cases h
  | some l0 =>
    rw [hlo] at h
    have hg : generateNums d coin opType r1 r2 = g := (Prod.mk.injEq _ _ _ _ ▸ Option.some.injEq _ _ ▸ h : _ ∧ _).1
    have hl : fisherYates l0 js = l := (Prod.mk.injEq _ _ _ _ ▸ Option.some.injEq _ _ ▸ h : _ ∧ _).2
    obtain ⟨hnd, hlen, hmem, hinv⟩ :=
      optionsLoop_some_spec d (generateNums d coin opType r1 r2).answer vs fuel 0
        [(generateNums d coin opType r1 r2).answer] l0
        (List.nodup_singleton _) (by simp) (by intro x hx; simp only [List.mem_singleton] at hx; left; exact hx) hlo
    have hperm : (fisherYates l0 js).Perm l0 := by
      unfold fisherYates
      rw [hlen]
      exact fyGo_perm js hjs 3 l0 (by omega)
    rw [hl] at hperm
    subst hg
    refine ⟨?_, ?_, ?_, ?_, generateNums_answer_nonneg d coin opType r1 r2⟩
    · exact hperm.mem_iff.mpr (hmem _ (by simp))
    · rw [hperm.length_eq, hlen]
    · exact hperm.nodup_iff.mpr hnd
    · intro x hx hne
      rcases hinv x (hperm.mem_iff.mp hx) with hx0 | hx0
      · exact absurd hx0 hne
      · exact hx0

/-- C1 witness: a concrete successful generation at difficulty 1 whose
invariant facts follow from the invariant theorem. -/
theorem generateProblem_invariant_witness :
    (7 : Int) ∈ [(7 : Int), 5, 6, 8] ∧ ([(7 : Int), 5, 6, 8]).length = 4 ∧
      ([(7 : Int), 5, 6, 8]).Nodup := by
  have h := generateProblem_invariant 1 true 0 2 3 (fun i => i) 5 (fun k => k)
    ⟨3, 4, Op.add, 7⟩ [7, 5, 6, 8] (fun k => Nat.le_refl k) (by decide)
  exact ⟨h.1, h.2.1, h.2.2.1⟩

/-! ### Claim C2 -/

lemma nodup_le_three (acc : List Int) (hnd : acc.Nodup)
    (hb : ∀ x ∈ acc, 0 < x ∧ x ≤ 3) : acc.length ≤ 3 := by
  have hsub : acc.toFinset ⊆ ({1, 2, 3} : Finset Int) := by
    intro x hx
    rw [List.mem_toFinset] at hx
    have hx3 := hb x hx
    have : x = 1 ∨ x = 2 ∨ x = 3 := by omega
    simp only [Finset.mem_insert, Finset.mem_singleton]
    exact this
  have hcard := Finset.card_le_card hsub
  have h3 : ({1, 2, 3} : Finset Int).card = 3 := by decide
  rw [List.toFinset_card_of_nodup hnd, h3] at hcard
  exact hcard

lemma optionsLoop_easy_one_none (vs : Nat → Nat) :
    ∀ (fuel i : Nat) (acc : List Int), acc.Nodup → (∀ x ∈ acc, 0 < x ∧ x ≤ 3) →
      optionsLoop 1 1 vs fuel i acc = none := by
  intro fuel
  induction fuel with
  | zero =>
    intro i acc hnd hb
    have h3 := nodup_le_three acc hnd hb
    rw [optionsLoop, if_neg (by omega)]
  | succ fuel ih =>
    intro i acc hnd hb
    have h3 := nodup_le_three acc hnd hb
    rw [optionsLoop, if_neg (by omega)]
    have hv5 : vs i % 5 < 5 := Nat.mod_lt _ (by norm_num)
    have hvb : variantFor 1 1 (vs i) ≤ 3 := by
      unfold variantFor
      rw [if_pos rfl]
      omega
    by_cases hacc : 0 < variantFor 1 1 (vs i) ∧ variantFor 1 1 (vs i) ∉ acc
    · rw [if_pos hacc]
      refine ih (i + 1) (acc ++ [variantFor 1 1 (vs i)])
        (List.Nodup.append hnd (List.nodup_singleton _) (by simpa using hacc.2)) ?_
      intro x hx
      rcases List.mem_append.mp hx with hx | hx
      · exact hb x hx
      · simp only [List.mem_singleton] at hx
        subst hx
        exact ⟨hacc.1, hvb⟩
    · rw [if_neg hacc]
      exact ih (i + 1) acc hnd hb

/-- C2: termination of the distractor loop fails on reachable input. The
easy subtraction 2 - 1 gives the correct answer 1; seeded with that answer
the options list can only ever hold values from the set of positive
perturbations, of which fewer than 4 exist, so for every retry budget and
every random stream the loop has not produced 4 unique choices — the
unbounded source loop runs forever. -/
theorem optionsLoop_unbounded_bug :
    (generateNums 1 false 0 1 0).answer = 1 ∧
      ∀ (fuel : Nat) (vs : Nat → Nat), optionsLoop 1 1 vs fuel 0 [1] = none := by
  refine ⟨by decide, ?_⟩
  intro fuel vs
  exact optionsLoop_easy_one_none vs fuel 0 [1] (List.nodup_singleton 1)
    (by intro x hx; simp only [List.mem_singleton] at hx; omega)

/-! ### Claim C3 -/

lemma mathUpdate_tick (dt T : ℚ) :
    mathUpdate dt
      { phase := .playing, score := 0, timeLeft := T, difficulty := 1,
        streak := 0, maxStreak := 0 } =
    if T - dt ≤ 0 then
      { phase := .gameOver, score := 0, timeLeft := T - dt, difficulty := 1,
        streak := 0, maxStreak := 0 }
    else
      { phase := .playing, score := 0, timeLeft := T - dt, difficulty := 1,
        streak := 0, maxStreak := 0 } := by
  unfold mathUpdate
  rw [if_neg (by simp)]
  dsimp only
  by_cases ht : T - dt ≤ 0
  · rw [if_pos ht, if_pos ht]
  · rw [if_neg ht, if_neg ht, if_neg (by omega), if_neg (by omega)]

lemma mathIter_closed : ∀ n : Nat, (mathUpdate 1)^[n] initialMathState =
    if n < 60 then
      { phase := .playing, score := 0, timeLeft := 60 - (n : ℚ), difficulty := 1,
        streak := 0, maxStreak := 0 }
    else
      { phase := .gameOver, score := 0, timeLeft := 0, difficulty := 1,
        streak := 0, maxStreak := 0 } := by
  intro n
  induction n with
  | zero =>
    rw [if_pos (by omega)]
    simp [initialMathState]
  | succ m ih =>
    rw [Function.iterate_succ_apply', ih]
    by_cases hm : m < 60
    · rw [if_pos hm, mathUpdate_tick]
      by_cases hm1 : m + 1 < 60
      · have hc1 : (m : ℚ) ≤ 58 := by exact_mod_cast (by omega : m ≤ 58)
        rw [if_neg (by rw [not_le]; linarith), if_pos hm1]
        have heq : (60 : ℚ) - (m : ℚ) - 1 = 60 - ((m + 1 : Nat) : ℚ) := by
          push_cast
          ring
        rw [heq]
      · have hm59 : m = 59 := by omega
        subst hm59
        rw [if_pos (by norm_num), if_neg hm1]
        have heq : (60 : ℚ) - ((59 : Nat) : ℚ) - 1 = 0 := by
          push_cast
          norm_num
        rw [heq]
    · rw [if_neg hm, if_neg (by omega)]
      unfold mathUpdate
      rw [if_pos (by simp)]

/-- C3: the update decrements the remaining time by the frame delta and is
inert outside the playing phase; while playing it moves to gameOver exactly
when the decremented time reaches zero; and a session started with 60
seconds on the clock reaches gameOver precisely after 60 ticks of one
second, the remaining time following the clamped value max 0 (60 - n)
throughout. -/
theorem mathTimer_spec :
    (∀ (dt : ℚ) (s : MathState), s.phase = .playing →
       (mathUpdate dt s).timeLeft = s.timeLeft - dt) ∧
    (∀ (dt : ℚ) (s : MathState), s.phase ≠ .playing → mathUpdate dt s = s) ∧
    (∀ (dt : ℚ) (s : MathState), s.phase = .playing →
       ((mathUpdate dt s).phase = .gameOver ↔ s.timeLeft - dt ≤ 0)) ∧
    (∀ n : Nat, ((mathUpdate 1)^[n] initialMathState).timeLeft = max 0 (60 - (n : ℚ)) ∧
       (((mathUpdate 1)^[n] initialMathState).phase = .gameOver ↔ 60 ≤ n)) := by
  refine ⟨?_, ?_, ?_, ?_⟩
  · intro dt s hs
    unfold mathUpdate
    rw [if_neg (by simp [hs])]
    dsimp only
    split_ifs <;> rfl
  · intro dt s hs
    unfold mathUpdate
    rw [if_pos hs]
  · intro dt s hs
    unfold mathUpdate
    rw [if_neg (by simp [hs])]
    dsimp only
    by_cases ht : s.timeLeft - dt ≤ 0
    · rw [if_pos ht]
      simpa using ht
    · rw [if_neg ht]
      split_ifs <;> simp [hs, ht]
  · intro n
    rw [mathIter_closed n]
    by_cases hn : n < 60
    · rw [if_pos hn]
      have hcast : (n : ℚ) ≤ 59 := by exact_mod_cast Nat.lt_succ_iff.mp hn
      refine ⟨by rw [max_eq_right (by linarith)], ?_⟩
      dsimp only
      constructor
      · intro hc
        cases hc
      · intro hc
        omega
    · rw [if_neg hn]
      have hcast : (60 : ℚ) ≤ (n : ℚ) := by exact_mod_cast Nat.le_of_not_lt hn
      refine ⟨by rw [max_eq_left (by linarith)], ?_⟩
      dsimp only
      constructor
      · intro _
        omega
      · intro _
        rfl

/-- C3 witness: after exactly 60 one-second ticks from the initial session
the phase is gameOver and the clock shows the clamped value zero. -/
theorem mathTimer_spec_witness :
    ((mathUpdate 1)^[60] initialMathState).phase = GState.gameOver ∧
      ((mathUpdate 1)^[60] initialMathState).timeLeft = max 0 (60 - ((60 : Nat) : ℚ)) :=
  ⟨(mathTimer_spec.2.2.2 60).2.mpr (Nat.le_refl 60), (mathTimer_spec.2.2.2 60).1⟩

/-! ### Claim C6 -/

/-- C6: every hard-tier division problem is built as num1 = num2 * answer,
so the division is exact: num1 / num2 = answer and num1 mod num2 = 0, for
every pair of random draws. -/
theorem division_exact_spec (coin : Bool) (opType r1 r2 : Nat) (h : opType % 4 = 3) :
    (generateNums 3 coin opType r1 r2).op = Op.div ∧
      (generateNums 3 coin opType r1 r2).num1 =
        (generateNums 3 coin opType r1 r2).num2 * (generateNums 3 coin opType r1 r2).answer ∧
      ((generateNums 3 coin opType r1 r2).num1 / (generateNums 3 coin opType r1 r2).num2 =
          (generateNums 3 coin opType r1 r2).answer ∧
        (generateNums 3 coin opType r1 r2).num1 % (generateNums 3 coin opType r1 r2).num2 = 0) := by
  unfold generateNums
  rw [if_neg (by omega), if_neg (by omega), h]
  dsimp only
  have hne : ((r1 % 10 + 1 : Nat) : Int) ≠ 0 := by positivity
  refine ⟨rfl, rfl, ?_, ?_⟩
  · exact Int.mul_ediv_cancel_left _ hne
  · exact Int.mul_emod_right _ _

/-- C6 witness: concrete hard-tier draws give 35 divided by 5 equals 7
exactly. -/
theorem division_exact_witness :
    (generateNums 3 true 3 4 6).num1 / (generateNums 3 true 3 4 6).num2 =
        (generateNums 3 true 3 4 6).answer ∧
      (generateNums 3 true 3 4 6).num1 % (generateNums 3 true 3 4 6).num2 = 0 :=
  (division_exact_spec true 3 4 6 (by decide)).2.2

/-! ### Claim C7 -/

/-- C7: the update never lowers the difficulty, and while playing with time
left on the clock it recomputes the difficulty as the maximum of the
current tier and the tier that the score thresholds prescribe. -/
theorem difficulty_monotone_spec :
    (∀ (dt : ℚ) (s : MathState), s.difficulty ≤ (mathUpdate dt s).difficulty) ∧
    (∀ (dt : ℚ) (s : MathState), s.phase = .playing → 0 < s.timeLeft - dt →
       1 ≤ s.difficulty → (mathUpdate dt s).difficulty = max s.difficulty (specTier s.score)) := by
  constructor
  · intro dt s
    unfold mathUpdate
    by_cases hp : s.phase ≠ .playing
    · rw [if_pos hp]
    · rw [if_neg hp]
      dsimp only
      by_cases ht : s.timeLeft - dt ≤ 0
      · rw [if_pos ht]
      · rw [if_neg ht]
        by_cases h30 : 30 ≤ s.score ∧ s.difficulty < 3
        · rw [if_pos h30]
          show s.difficulty ≤ 3
          omega
        · rw [if_neg h30]
          by_cases h15 : 15 ≤ s.score ∧ s.difficulty < 2
          · rw [if_pos h15]
            show s.difficulty ≤ 2
            omega
          · rw [if_neg h15]
  · intro dt s hs ht hd
    unfold mathUpdate specTier
    rw [if_neg (by simp [hs])]
    dsimp only
    rw [if_neg (by rw [not_le]; linarith)]
    rcases Nat.lt_or_ge s.score 15 with hs15 | hs15
    · rw [if_neg (by omega : ¬(30 ≤ s.score ∧ s.difficulty < 3)),
        if_neg (by omega : ¬(15 ≤ s.score ∧ s.difficulty < 2)),
        if_neg (by omega : ¬30 ≤ s.score), if_neg (by omega : ¬15 ≤ s.score)]
      show s.difficulty = max s.difficulty 1
      omega
    · rcases Nat.lt_or_ge s.score 30 with hs30 | hs30
      · rw [if_neg (by omega : ¬(30 ≤ s.score ∧ s.difficulty < 3)),
          if_neg (by omega : ¬30 ≤ s.score), if_pos hs15]
        by_cases hd2 : s.difficulty < 2
        · rw [if_pos (⟨hs15, hd2⟩ : 15 ≤ s.score ∧ s.difficulty < 2)]
          show (2 : Nat) = max s.difficulty 2
          omega
        · rw [if_neg (by omega : ¬(15 ≤ s.score ∧ s.difficulty < 2))]
          show s.difficulty = max s.difficulty 2
          omega
      · by_cases hd3 : s.difficulty < 3
        · rw [if_pos (⟨hs30, hd3⟩ : 30 ≤ s.score ∧ s.difficulty < 3), if_pos hs30]
          show (3 : Nat) = max s.difficulty 3
          omega
        · rw [if_neg (by omega : ¬(30 ≤ s.score ∧ s.difficulty < 3)),
            if_neg (by omega : ¬(15 ≤ s.score ∧ s.difficulty < 2)), if_pos hs30]
          show s.difficulty = max s.difficulty 3
          omega

/-- C7 witness: a playing session with score 20 at tier 1 moves to tier 2
on the next tick. -/
theorem difficulty_monotone_witness :
    (mathUpdate 1
      { phase := .playing, score := 20, timeLeft := 60, difficulty := 1,
        streak := 0, maxStreak := 0 }).difficulty = max 1 (specTier 20) :=
  difficulty_monotone_spec.2 1
    { phase := .playing, score := 20, timeLeft := 60, difficulty := 1,
      streak := 0, maxStreak := 0 } rfl (by norm_num) (by norm_num)

/-! ### Claim C8 -/

/-- C8: an incorrect selection resets the streak to 0 and leaves maxStreak
untouched, for every session state; in particular a correct selection
followed immediately by an incorrect one ends with streak 0 and maxStreak
equal to the peak max maxStreak (streak + 1) reached by the correct
answer. -/
theorem incorrect_selection_spec :
    (∀ (s : MathState) (sel ans : Int), sel ≠ ans →
       (checkAnswer sel s ans).streak = 0 ∧ (checkAnswer sel s ans).maxStreak = s.maxStreak) ∧
    (∀ (s : MathState) (a sel ans : Int), sel ≠ ans →
       (checkAnswer sel (checkAnswer a s a) ans).streak = 0 ∧
       (checkAnswer sel (checkAnswer a s a) ans).maxStreak = max s.maxStreak (s.streak + 1)) := by
  have hwrong : ∀ (s : MathState) (sel ans : Int), sel ≠ ans →
      (checkAnswer sel s ans).streak = 0 ∧ (checkAnswer sel s ans).maxStreak = s.maxStreak := by
    intro s sel ans hne
    unfold checkAnswer
    rw [if_neg hne]
    exact ⟨rfl, rfl⟩
  refine ⟨hwrong, ?_⟩
  intro s a sel ans hne
  obtain ⟨h1, h2⟩ := hwrong (checkAnswer a s a) sel ans hne
  refine ⟨h1, ?_⟩
  rw [h2]
  unfold checkAnswer
  rw [if_pos rfl]
  dsimp only
  split_ifs <;> omega

/-- C8 witness: from a session with streak 2 and maxStreak 2, answering 4
correctly and then 9 against the answer 4 ends with streak 0 and the
maxStreak peak 3. -/
theorem incorrect_selection_witness :
    (checkAnswer 9 (checkAnswer 4
        { phase := GState.playing, score := 0, timeLeft := 60, difficulty := 1,
          streak := 2, maxStreak := 2 } 4) 4).streak = 0 ∧
      (checkAnswer 9 (checkAnswer 4
        { phase := GState.playing, score := 0, timeLeft := 60, difficulty := 1,
          streak := 2, maxStreak := 2 } 4) 4).maxStreak = max 2 (2 + 1) :=
  incorrect_selection_spec.2
    { phase := GState.playing, score := 0, timeLeft := 60, difficulty := 1,
      streak := 2, maxStreak := 2 } 4 9 4 (by decide)

/-! ### Claim C9 -/

/-- C9 counterexample: a session that ends with score 0 does not persist
the score at all — the stored list stays empty instead of becoming the
insert-sort-truncate result that contains the final score. -/
theorem recordHighScore_zero_cex :
    recordHighScore 0 [] = [] ∧
      (List.insertionSort (· ≥ ·) (([] : List Nat) ++ [0])).take 5 = [0] ∧
      recordHighScore 0 [] ≠ (List.insertionSort (· ≥ ·) (([] : List Nat) ++ [0])).take 5 := by
  refine ⟨rfl, by decide, by decide⟩

/-- C9 (amended): a positive final score is persisted by appending,
sorting descending and truncating to the top 5, so the stored list is
descending with at most 5 entries, contains the new score whenever the
previous list held at most 4 entries, and contains nothing but old entries
and the new score; a zero final score leaves the stored list untouched. -/
theorem recordHighScore_spec :
    (∀ (sc : Nat) (hs : List Nat), sc = 0 → recordHighScore sc hs = hs) ∧
    (∀ (sc : Nat) (hs : List Nat), 0 < sc →
       (recordHighScore sc hs).Sorted (· ≥ ·) ∧
       (recordHighScore sc hs).length ≤ 5 ∧
       (hs.length ≤ 4 → sc ∈ recordHighScore sc hs) ∧
       (∀ x ∈ recordHighScore sc hs, x ∈ hs ++ [sc])) := by
  constructor
  · intro sc hs hsc
    unfold recordHighScore
    rw [if_neg (by omega)]
  · intro sc hs hsc
    unfold recordHighScore
    rw [if_pos hsc]
    have hsorted : (List.insertionSort (· ≥ ·) (hs ++ [sc])).Sorted (· ≥ ·) :=
      List.sorted_insertionSort _ _
    have hperm : (List.insertionSort (· ≥ ·) (hs ++ [sc])).Perm (hs ++ [sc]) :=
      List.perm_insertionSort _ _
    refine ⟨?_, List.length_take_le 5 _, ?_, ?_⟩
    · exact List.Pairwise.sublist (List.take_sublist 5 _) hsorted
    · intro hlen
      have hlen5 : (List.insertionSort (· ≥ ·) (hs ++ [sc])).length ≤ 5 := by
        rw [hperm.length_eq]
        simp only [List.length_append, List.length_singleton]
        omega
      rw [List.take_of_length_le hlen5]
      exact hperm.mem_iff.mpr (by simp)
    · intro x hx
      exact hperm.mem_iff.mp (List.mem_of_mem_take hx)

/-- C9 witness: recording the positive score 7 over a previous list keeps
the list sorted descending, within the cap, and containing 7. -/
theorem recordHighScore_spec_witness :
    (recordHighScore 7 [10, 3]).Sorted (· ≥ ·) ∧
      (recordHighScore 7 [10, 3]).length ≤ 5 := by
  have h := recordHighScore_spec.2 7 [10, 3] (by norm_num)
  exact ⟨h.1, h.2.1⟩

/-! ### Claim C5 -/

/-- C5 counterexample: on a draw past every bucket, getRandomBalloonType
falls back to NORMAL, the first declared kind, not to the last bucket LIFE
that the spec names as the fallback. -/
theorem balloonType_fallback_cex :
    getRandomBalloonType 2 = BalloonType.NORMAL ∧
      BalloonType.NORMAL ≠ BalloonType.LIFE := by
  constructor
  · norm_num [getRandomBalloonType, typeLoop, BALLOON_TYPES]
  · decide

/-- C5 (amended): for every draw in the unit interval the selected kind is
exactly the first kind in declaration order whose cumulative probability
reaches the draw, and on a draw that matches no bucket the fallback is
NORMAL, the first declared kind, rather than the last bucket. -/
theorem balloonType_bucket_spec :
    (∀ r : ℚ, 0 ≤ r → r < 1 → getRandomBalloonType r = specBucketType r) ∧
    (∀ r : ℚ, 1 < r → getRandomBalloonType r = BalloonType.NORMAL) := by
  constructor
  · intro r h0 h1
    simp only [getRandomBalloonType, BALLOON_TYPES, typeLoop, specBucketType]
    split_ifs <;> first | rfl | (exfalso; linarith)
  · intro r h1
    simp only [getRandomBalloonType, BALLOON_TYPES, typeLoop]
    split_ifs <;> first | rfl | (exfalso; linarith)

/-- C5 witness: the draw one half lands in the NORMAL bucket on both the
code side and the spec side. -/
theorem balloonType_bucket_witness :
    getRandomBalloonType (1/2) = specBucketType (1/2) :=
  balloonType_bucket_spec.1 (1/2) (by norm_num) (by norm_num)

/-! ### Claim C10 -/

lemma stepBalloons_spec (mult : ℚ) :
    ∀ (bs : List Balloon) (lives : Int) (ph : GState),
      (stepBalloons mult bs lives ph).2.1 =
          lives - (bs.countP (escapesLoss mult) : Int) ∧
      ((stepBalloons mult bs lives ph).2.2 = .gameOver ↔
          ph = .gameOver ∨ (1 ≤ bs.countP (escapesLoss mult) ∧
            lives - (bs.countP (escapesLoss mult) : Int) ≤ 0)) ∧
      ((stepBalloons mult bs lives ph).2.2 = ph ∨
        (stepBalloons mult bs lives ph).2.2 = .gameOver) := by
  intro bs
  induction bs with
  | nil =>
    intro lives ph
    refine ⟨by simp [stepBalloons], by simp [stepBalloons], by simp [stepBalloons]⟩
  | cons b rest ih =>
    intro lives ph
    by_cases hpop : b.popped = true
    · have hel : escapesLoss mult b = false := by simp [escapesLoss, escapes, hpop]
      have hcnt : (b :: rest).countP (escapesLoss mult) = rest.countP (escapesLoss mult) := by
        simp [List.countP_cons, hel]
      have hstep : stepBalloons mult (b :: rest) lives ph =
          (b :: (stepBalloons mult rest lives ph).1, (stepBalloons mult rest lives ph).2) := by
        simp [stepBalloons, hpop]
      rw [hstep, hcnt]
      exact ih lives ph
    · have hpop' : b.popped = false := by simpa using hpop
      by_cases he : (moveY mult b).y + BALLOON_RADIUS < 0
      · by_cases hb : b.btype = BalloonType.BOMB
        · have hel : escapesLoss mult b = false := by simp [escapesLoss, hb]
          have hcnt : (b :: rest).countP (escapesLoss mult) = rest.countP (escapesLoss mult) := by
            simp [List.countP_cons, hel]
          have hstep : stepBalloons mult (b :: rest) lives ph =
              ({ moveY mult b with popped := true } :: (stepBalloons mult rest lives ph).1,
                (stepBalloons mult rest lives ph).2) := by
            simp [stepBalloons, hpop', he, hb]
          rw [hstep, hcnt]
          exact ih lives ph
        · have hel : escapesLoss mult b = true := by
            simp [escapesLoss, escapes, hpop', he, hb]
          have hcnt : (b :: rest).countP (escapesLoss mult) =
              rest.countP (escapesLoss mult) + 1 := by
            simp [List.countP_cons, hel]
          have hstep : stepBalloons mult (b :: rest) lives ph =
              ({ moveY mult b with popped := true } ::
                  (stepBalloons mult rest (lives - 1)
                    (if lives - 1 ≤ 0 then GState.gameOver else ph)).1,
                (stepBalloons mult rest (lives - 1)
                  (if lives - 1 ≤ 0 then GState.gameOver else ph)).2) := by
            simp [stepBalloons, hpop', he, hb]
          rw [hstep, hcnt]
          dsimp only
          obtain ⟨ih1, ih2, ih3⟩ :=
            ih (lives - 1) (if lives - 1 ≤ 0 then GState.gameOver else ph)
          refine ⟨?_, ?_, ?_⟩
          · rw [ih1]
            push_cast
            ring
          · rw [ih2]
            by_cases hph : ph = GState.gameOver
            · simp only [hph, ite_self]
              simp only [eq_self_iff_true, true_or, true_iff]
            · by_cases hl : lives - 1 ≤ 0
              · rw [if_pos hl]
                constructor
                · intro _
                  refine Or.inr ⟨by omega, ?_⟩
                  push_cast
                  omega
                · intro _
                  exact Or.inl rfl
              · rw [if_neg hl]
                constructor
                · intro hcc
                  rcases hcc with hcc | hcc
                  · exact Or.inl hcc
                  · refine Or.inr ⟨by omega, ?_⟩
                    push_cast at hcc ⊢
                    omega
                · intro hcc
                  rcases hcc with hcc | hcc
                  · exact Or.inl hcc
                  · refine Or.inr ⟨?_, ?_⟩
                    · push_cast at hcc
                      omega
                    · push_cast at hcc ⊢
                      omega
          · by_cases hl : lives - 1 ≤ 0
            · rw [if_pos hl] at ih3 ⊢
              rcases ih3 with h | h
              · exact Or.inr h
              · exact Or.inr h
            · rw [if_neg hl] at ih3 ⊢
              exact ih3
      · have hel : escapesLoss mult b = false := by simp [escapesLoss, escapes, hpop', he]
        have hcnt : (b :: rest).countP (escapesLoss mult) = rest.countP (escapesLoss mult) := by
          simp [List.countP_cons, hel]
        have hstep : stepBalloons mult (b :: rest) lives ph =
            (moveY mult b :: (stepBalloons mult rest lives ph).1,
              (stepBalloons mult rest lives ph).2) := by
          simp [stepBalloons, hpop', he]
        rw [hstep, hcnt]
        exact ih lives ph

/-- C10: on a playing tick, the lives drop by exactly the number of live
balloons that cross above the top boundary and are not bombs (a bomb
escape costs nothing), no popped or escaped balloon survives into the next
frame, and the phase becomes gameOver on that same tick exactly when at
least one life was deducted and the lives reached zero or below. -/
theorem balloon_escape_spec (s : BalloonState) (h : s.phase = .playing) :
    (balloonUpdate s).lives =
        s.lives - (s.balloons.countP (escapesLoss (speedMult (powerAfter s).2)) : Int) ∧
    (∀ b ∈ (balloonUpdate s).balloons, b.popped = false ∧ 0 < b.y + BALLOON_RADIUS) ∧
    ((balloonUpdate s).phase = .gameOver ↔
        1 ≤ s.balloons.countP (escapesLoss (speedMult (powerAfter s).2)) ∧
        s.lives - (s.balloons.countP (escapesLoss (speedMult (powerAfter s).2)) : Int) ≤ 0) := by
  have hstep := stepBalloons_spec (speedMult (powerAfter s).2) s.balloons s.lives s.phase
  unfold balloonUpdate
  rw [if_neg (by simp [h])]
  dsimp only
  refine ⟨hstep.1, ?_, ?_⟩
  · intro b hb
    have hb2 := (List.mem_filter.mp hb).2
    simp only [Bool.and_eq_true, decide_eq_true_eq, Bool.not_eq_true'] at hb2
    exact ⟨hb2.2, hb2.1⟩
  · rw [hstep.2.1]
    simp [h]

/-- C10 witness: one live NORMAL balloon escaping with one life left makes
that very tick end in gameOver. -/
theorem balloon_escape_witness :
    (balloonUpdate
      { phase := GState.playing, score := 0, lives := 1,
        balloons := [{ y := 20, speed := 60, popped := false, btype := BalloonType.NORMAL }],
        combo := 0, comboTimer := 0, activePowerUp := false, powerUpTimer := 0 }).phase =
      GState.gameOver := by
  have h := balloon_escape_spec
    { phase := GState.playing, score := 0, lives := 1,
      balloons := [{ y := 20, speed := 60, popped := false, btype := BalloonType.NORMAL }],
      combo := 0, comboTimer := 0, activePowerUp := false, powerUpTimer := 0 } rfl
  refine h.2.2.mpr ?_
  norm_num [powerAfter, speedMult, escapesLoss, escapes, moveY, BALLOON_RADIUS,
    List.countP_cons, List.countP_nil]
  decide

/-! ### Claim C4 -/

/-- C4 counterexample: resetGame moves a playing session straight back to
waiting, a backwards move along the claimed one-directional chain. -/
theorem resetGame_backwards_cex :
    (resetGame
      { phase := GState.playing, score := 0, lives := 3, balloons := [],
        combo := 0, comboTimer := 0, activePowerUp := false, powerUpTimer := 0 }).phase =
      GState.waiting ∧ GState.waiting ≠ GState.playing :=
  ⟨rfl, by decide⟩

/-- C4 (amended): every session operation except reset moves the phase only
along the allowed edges — stay in place, waiting to playing, playing and
paused exchanging, playing to gameOver, and the gameOver-to-playing restart
— while reset returns the session to waiting from any phase. -/
theorem phase_forward_spec :
    (∀ s : BalloonState, (resetGame s).phase = GState.waiting) ∧
    (∀ s : BalloonState, forwardOk s.phase (togglePause s).phase) ∧
    (∀ s : BalloonState, forwardOk s.phase (handleClickStart s).phase) ∧
    (∀ s : BalloonState, forwardOk s.phase (balloonUpdate s).phase) ∧
    (∀ (s : BalloonState) (t : BalloonType),
       s.phase = .playing ∨ s.phase = .gameOver →
       forwardOk s.phase (popSpecialEffects t s).phase) := by
  refine ⟨fun s => rfl, ?_, ?_, ?_, ?_⟩
  · intro s
    unfold togglePause forwardOk
    by_cases h1 : s.phase = .playing
    · rw [if_pos h1]
      exact Or.inr (Or.inr (Or.inl ⟨h1, rfl⟩))
    · rw [if_neg h1]
      by_cases h2 : s.phase = .paused
      · rw [if_pos h2]
        exact Or.inr (Or.inr (Or.inr (Or.inl ⟨h2, rfl⟩)))
      · rw [if_neg h2]
        exact Or.inl rfl
  · intro s
    unfold handleClickStart forwardOk
    by_cases h : s.phase = .waiting ∨ s.phase = .gameOver
    · rw [if_pos h]
      rcases h with h | h
      · exact Or.inr (Or.inl ⟨h, rfl⟩)
      · exact Or.inr (Or.inr (Or.inr (Or.inr (Or.inr ⟨h, rfl⟩))))
    · rw [if_neg h]
      exact Or.inl rfl
  · intro s
    unfold balloonUpdate forwardOk
    by_cases h : s.phase ≠ .playing
    · rw [if_pos h]
      exact Or.inl rfl
    · rw [if_neg h]
      dsimp only
      push_neg at h
      rcases (stepBalloons_spec (speedMult (powerAfter s).2) s.balloons s.lives s.phase).2.2
        with h3 | h3
      · exact Or.inl h3
      · exact Or.inr (Or.inr (Or.inr (Or.inr (Or.inl ⟨h, h3⟩))))
  · intro s t hph
    unfold popSpecialEffects forwardOk
    cases t with
    | BOMB =>
      dsimp only
      by_cases hl : s.lives - 1 ≤ 0
      · rw [if_pos hl]
        rcases hph with h | h
        · exact Or.inr (Or.inr (Or.inr (Or.inr (Or.inl ⟨h, rfl⟩))))
        · exact Or.inl h.symm
      · rw [if_neg hl]
        exact Or.inl rfl
    | NORMAL => exact Or.inl rfl
    | GOLDEN => exact Or.inl rfl
    | SPEED => exact Or.inl rfl
    | LIFE => exact Or.inl rfl

/-- C4 witness: popping a BOMB while playing keeps the phase on an allowed
edge. -/
theorem phase_forward_witness :
    forwardOk GState.playing
      (popSpecialEffects BalloonType.BOMB
        { phase := GState.playing, score := 0, lives := 3, balloons := [],
          combo := 0, comboTimer := 0, activePowerUp := false, powerUpTimer := 0 }).phase :=
  phase_forward_spec.2.2.2.2
    { phase := GState.playing, score := 0, lives := 3, balloons := [],
      combo := 0, comboTimer := 0, activePowerUp := false, powerUpTimer := 0 }
    BalloonType.BOMB (Or.inl rfl)
